import Mathlib

/-!
Verification of the `Screen` display-surface abstraction and the top-level
application loop of the stm32f407-z80emu firmware.

The repository slice consists of `Main/Display/Screen.h` (the class
declaration, including the in-class member initializers) and
`Main/startup.cpp` (the application loop).  The bodies of the `Screen`
member functions live in a `Screen.cpp` that is not part of this slice, so
those operations are modelled from the specification; the member
initializers and the application loop are translated directly from the
source.
-/

set_option autoImplicit false

namespace Display

/-- Modelled from the spec: a font table is "an immutable table mapping a
character code to an 8×8 (or configurable) monochrome glyph bitmap"
(`font8x8.h` is not part of the source slice).  `bits code row col` is the
monochrome bit of glyph `code` at glyph row `row`, column `col`. -/
structure FontTable where
  glyphWidth : Nat
  glyphHeight : Nat
  bits : Nat → Nat → Nat → Bool

/-- Modelled from the spec: the built-in font referenced by the in-class
initializer `_font = (uint8_t*)font8x8` in `Screen.h`.  The core treats the
font as opaque read-only memory, so the concrete bit pattern is irrelevant;
only its existence (non-null) and its 8×8 cell size matter. -/
def font8x8 : FontTable :=
  { glyphWidth := 8
    glyphHeight := 8
    bits := fun code row col => Nat.testBit (code + 17 * row) (col % 8) }

/-- Modelled from the spec: one text cell stores the character code printed
into it together with the attribute that was active when it was printed
("attribute is stored per-cell via the rendering call, not globally
re-applied"). -/
structure Cell where
  code : Nat
  attr : Nat
  deriving DecidableEq

/-- The display-surface state.  Geometry fields, the font pointer, the
attribute, the cursor fields and the frame counter correspond to the data
members declared in `Screen.h` (`_startLine`, `_horizontalBorder`,
`_verticalBorder`, `_isCursorVisible`, `_hResolution`,
`_hResolutionNoBorder`, `_vResolution`, `_font`, `_attribute`, `_cursor_x`,
`_cursor_y`, `_frames`).  `columns`/`rows` are the derived text-cell grid
size, `borderColor` the flat border fill color, `glyphW`/`glyphH` the
configured glyph cell size and `cells` the per-cell contents; these derived
parts are modelled from the spec since `Screen.cpp` is not in the slice. -/
structure Screen where
  hResolution : Nat
  hResolutionNoBorder : Nat
  vResolution : Nat
  startLine : Nat
  horizontalBorder : Nat
  verticalBorder : Nat
  columns : Nat
  rows : Nat
  glyphW : Nat
  glyphH : Nat
  borderColor : Nat
  font : Option FontTable
  attr : Nat
  cursorX : Nat
  cursorY : Nat
  isCursorVisible : Bool
  frames : Nat
  cells : Nat → Nat → Cell

/-- Foreground color index of a packed attribute (high byte; `0x3F10` is
"white on blue", so the foreground is the high byte `0x3F`). -/
def attrFg (a : Nat) : Nat := a / 256 % 256

/-- Background color index of a packed attribute (low byte). -/
def attrBg (a : Nat) : Nat := a % 256

/-- Modelled from the spec: `InvertColor()` "swaps the foreground/background
halves of the current attribute" (`Screen.cpp` is not in the slice). -/
def invertAttr (a : Nat) : Nat := attrBg a * 256 + attrFg a

/-- Modelled from the spec: the constructor `Screen(settings, startLine,
height)`.  The derivation of the geometry fields from `VideoSettings` lives
in the missing `Screen.cpp` and is taken here as given parameters; the
non-geometry defaults are the in-class initializers of `Screen.h`
(`_font = font8x8`, `_attribute = 0x3F10`, `_cursor_x = 0`, `_cursor_y = 0`,
`_frames = 0`). -/
def Screen.construct (hRes hResNB vRes startLine hBorder vBorder cols rws gW gH bColor : Nat) : Screen :=
  { hResolution := hRes
    hResolutionNoBorder := hResNB
    vResolution := vRes
    startLine := startLine
    horizontalBorder := hBorder
    verticalBorder := vBorder
    columns := cols
    rows := rws
    glyphW := gW
    glyphH := gH
    borderColor := bColor
    font := some font8x8
    attr := 0x3F10
    cursorX := 0
    cursorY := 0
    isCursorVisible := false
    frames := 0
    cells := fun _ _ => ⟨32, 0x3F10⟩ }

/-- Modelled from the spec: `SetAttribute(code)` "replaces the current
foreground/background pair for subsequently printed text". -/
def SetAttribute (s : Screen) (a : Nat) : Screen := { s with attr := a }

/-- Modelled from the spec: `SetCursorPosition(x, y)` "sets
`cursorX`/`cursorY`, clamped to valid text-cell bounds". -/
def SetCursorPosition (s : Screen) (x y : Nat) : Screen :=
  { s with cursorX := min x (s.columns - 1), cursorY := min y (s.rows - 1) }

/-- Modelled from the spec: `ShowCursor()` sets the visibility toggle. -/
def ShowCursor (s : Screen) : Screen := { s with isCursorVisible := true }

/-- Modelled from the spec: `HideCursor()` clears the visibility toggle. -/
def HideCursor (s : Screen) : Screen := { s with isCursorVisible := false }

/-- Modelled from the spec: `SetFont(table)` "swaps the active glyph table
pointer"; "a null or mis-sized font table is rejected at `SetFont` time
(fails to swap, retains previous valid table)". -/
def SetFont (s : Screen) (t : Option FontTable) : Screen :=
  match t with
  | none => s
  | some f =>
      if f.glyphWidth = s.glyphW ∧ f.glyphHeight = s.glyphH then
        { s with font := some f }
      else
        s

/-- Modelled from the spec: `CursorNext()` advances the cursor one column;
"on reaching the last column, `CursorNext()` wraps to column 0 of the next
row; reaching the last row wraps to row 0 (ring-buffer text area)". -/
def CursorNext (s : Screen) : Screen :=
  if s.cursorX + 1 < s.columns then
    { s with cursorX := s.cursorX + 1 }
  else if s.cursorY + 1 < s.rows then
    { s with cursorX := 0, cursorY := s.cursorY + 1 }
  else
    { s with cursorX := 0, cursorY := 0 }

/-- Modelled from the spec: storing a printed character into the cell at the
cursor, together with the attribute active at print time ("attribute is
stored per-cell via the rendering call"). -/
def writeCell (s : Screen) (c : Nat) : Screen :=
  { s with
      cells := fun x y =>
        if x = s.cursorX ∧ y = s.cursorY then ⟨c, s.attr⟩ else s.cells x y }

/-- Modelled from the spec: "a newline-equivalent control character forces
an immediate wrap without filling remaining columns"; the wrap obeys the
same ring rule as `CursorNext` at the last row. -/
def wrapLine (s : Screen) : Screen :=
  { s with cursorX := 0, cursorY := (s.cursorY + 1) % s.rows }

/-- Newline-equivalent control character code. -/
def newlineCode : Nat := 10

/-- Modelled from the spec: `PrintChar` writes one character at the current
cursor position under the current attribute and advances the cursor via
`CursorNext`; a newline-equivalent character wraps instead. -/
def PrintChar (s : Screen) (c : Nat) : Screen :=
  if c = newlineCode then wrapLine s else CursorNext (writeCell s c)

/-- Modelled from the spec: `Print(str)` "writes characters starting at the
current cursor position, advancing the cursor column-by-column". -/
def Print (s : Screen) (str : List Nat) : Screen :=
  str.foldl PrintChar s

/-- Modelled from the spec: `PrintAt(x, y, str)` is "equivalent to
`SetCursorPosition(x,y)` then `Print(str)`". -/
def PrintAt (s : Screen) (x y : Nat) (str : List Nat) : Screen :=
  Print (SetCursorPosition s x y) str

/-- Modelled from the spec: `PrintAlignRight(y, str)` computes "the starting
column from `strlen(str)` and the surface's column count so the text's
right edge aligns to the row's right edge", the start column being
"possibly negative-clamped-to-0" (natural subtraction), then prints there. -/
def PrintAlignRight (s : Screen) (y : Nat) (str : List Nat) : Screen :=
  PrintAt s (s.columns - str.length) y str

/-- Per-line timing class returned to the video timing engine. -/
inductive Timing where
  | border
  | active
  deriving DecidableEq

/-- The timing metadata returned by `rasterize`: how the pixel clock should
be scaled for this line and how many output samples were written. -/
structure RasterInfo where
  timing : Timing
  samplesWritten : Nat
  deriving DecidableEq

/-- Modelled from the spec: the cursor "blink phase (derived from `frames`)
is in its 'on' half" (the concrete period lives in the missing
`Screen.cpp`; only its dependence on `frames` alone matters here). -/
def blinkOn (frames : Nat) : Bool := frames % 32 < 16

/-- Modelled from the spec: the cursor overlay applies to a cell when it is
`(cursorX, cursorY)`, the cursor is visible, and the blink phase is on. -/
def cursorOn (s : Screen) (x y : Nat) : Bool :=
  s.isCursorVisible && decide (x = s.cursorX) && decide (y = s.cursorY) &&
    blinkOn s.frames

/-- Monochrome glyph bit for the character stored at cell `(x, y)`, at glyph
row `g`, glyph column `col`; a missing font yields background everywhere. -/
def fontBit (s : Screen) (x y g col : Nat) : Bool :=
  match s.font with
  | some f => f.bits (s.cells x y).code g col
  | none => false

/-- Expansion of one monochrome glyph row into `w` foreground/background
pixel samples. -/
def expandRow (bits : Nat → Bool) (fg bg : Nat) (w : Nat) : List Nat :=
  (List.range w).map fun col => if bits col then fg else bg

/-- Modelled from the spec: the glyph-only pixel output for glyph row `g` of
cell `(x, y)`: the stored character's glyph row expanded "into
foreground/background pixel samples per the current attribute for that
cell", with no cursor overlay. -/
def glyphRow (s : Screen) (x y g : Nat) : List Nat :=
  expandRow (fontBit s x y g) (attrFg ((s.cells x y).attr))
    (attrBg ((s.cells x y).attr)) s.glyphW

/-- Modelled from the spec: the pixel output for glyph row `g` of cell
`(x, y)` as rasterized, additionally blending "a cursor overlay (inverted
color)" when the cursor overlay applies to the cell. -/
def renderCellRow (s : Screen) (x y g : Nat) : List Nat :=
  if cursorOn s x y then
    expandRow (fontBit s x y g) (attrBg ((s.cells x y).attr))
      (attrFg ((s.cells x y).attr)) s.glyphW
  else
    glyphRow s x y g

/-- Modelled from the spec: the vertical border band is the set of scanlines
outside the active text band that starts `verticalBorder` lines after
`startLine` and spans `rows` glyph-high cell rows. -/
def inVerticalBorder (s : Screen) (line : Nat) : Bool :=
  decide (line < s.startLine + s.verticalBorder) ||
    decide (s.startLine + s.verticalBorder + s.rows * s.glyphH ≤ line)

/-- Modelled from the spec: `rasterize(cyclesPerPixel, lineNumber,
targetBuffer) → RasterInfo` (`Screen.cpp` is not in the slice).  The call is
modelled as a function from the pre-state to the post-state, the contents
written into the caller's target buffer, and the returned timing metadata.
"If `lineNumber` falls within the vertical border band, the engine fills the
buffer with the border color and returns border timing.  If within the
active text band, for each text column it fetches the glyph row for the
current font's character at that cell-row offset" and expands it; the line
is framed by the horizontal border on both sides.  The engine "never mutates
DisplaySurface state during a rasterize call", so the post-state is the
pre-state. -/
def rasterize (s : Screen) (_cyclesPerPixel line : Nat) : Screen × List Nat × RasterInfo :=
  if inVerticalBorder s line then
    (s, List.replicate s.hResolution s.borderColor,
      ⟨Timing.border, s.hResolution⟩)
  else
    let offset := line - (s.startLine + s.verticalBorder)
    let cellRow := offset / s.glyphH
    let g := offset % s.glyphH
    let text := (List.range s.columns).flatMap fun x => renderCellRow s x cellRow g
    let hb := List.replicate s.horizontalBorder s.borderColor
    (s, hb ++ text ++ hb, ⟨Timing.active, (hb ++ text ++ hb).length⟩)

/-- A concrete display surface used to instantiate proved statements: a
2×2-cell text area with 8×8 glyphs, one border line above/below and two
border pixels left/right. -/
def testScreen : Screen :=
  Screen.construct 20 16 18 0 2 1 2 2 8 8 9

/-- Modelled from the spec: the frame counter is "incremented once per
completed frame by the timing engine's callback pattern"; `setFrames`
states the surface at an arbitrary frame-counter value. -/
def setFrames (s : Screen) (f : Nat) : Screen := { s with frames := f }

end Display

namespace Startup

/-- The events observable in one iteration of `loop()` in
`Main/startup.cpp`: consulting each of the three mode handlers, and running
`zx_loop()` (whose result feeds the key-dispatch `switch`). -/
inductive LoopEvent where
  | consultLoad
  | consultSave
  | consultKeyboard
  | runZx (result : Int)
  deriving DecidableEq

/-- Translated from `loop()` in `Main/startup.cpp`: the iteration consults
`loadSnapshotLoop()`, returning immediately if it yields true; then
`saveSnapshotLoop()`, returning immediately if true; then
`showKeyboardLoop()`, returning immediately if true; only then does it run
`zx_loop()` and dispatch on its result.  `loadRes`, `saveRes` and `kbdRes`
are the values the three handlers return this iteration and `zxResult` the
value `zx_loop()` would return; the function yields the ordered list of
events the iteration performs. -/
def loopTrace (loadRes saveRes kbdRes : Bool) (zxResult : Int) : List LoopEvent :=
  LoopEvent.consultLoad ::
    (if loadRes then []
     else LoopEvent.consultSave ::
       (if saveRes then []
        else LoopEvent.consultKeyboard ::
          (if kbdRes then []
           else [LoopEvent.runZx zxResult])))

end Startup

namespace Display

/-- A font table whose glyph cell size does not match the 8×8 cells
configured for `testScreen`; used to exercise the `SetFont` rejection
path. -/
def badFont : FontTable :=
  { glyphWidth := 4, glyphHeight := 4, bits := fun _ _ _ => false }

theorem writeCell_cursorX (s : Screen) (c : Nat) :
    (writeCell s c).cursorX = s.cursorX := rfl

theorem writeCell_cursorY (s : Screen) (c : Nat) :
    (writeCell s c).cursorY = s.cursorY := rfl

theorem writeCell_columns (s : Screen) (c : Nat) :
    (writeCell s c).columns = s.columns := rfl

theorem writeCell_rows (s : Screen) (c : Nat) :
    (writeCell s c).rows = s.rows := rfl

theorem CursorNext_cells (s : Screen) : (CursorNext s).cells = s.cells := by
  unfold CursorNext
  split_ifs <;> rfl

theorem CursorNext_columns (s : Screen) : (CursorNext s).columns = s.columns := by
  unfold CursorNext
  split_ifs <;> rfl

theorem CursorNext_rows (s : Screen) : (CursorNext s).rows = s.rows := by
  unfold CursorNext
  split_ifs <;> rfl

theorem PrintChar_of_ne_newline (s : Screen) (c : Nat) (hc : c ≠ newlineCode) :
    PrintChar s c = CursorNext (writeCell s c) := by
  unfold PrintChar
  rw [if_neg hc]

theorem PrintChar_columns (s : Screen) (c : Nat) :
    (PrintChar s c).columns = s.columns := by
  unfold PrintChar wrapLine
  split
  · rfl
  · rw [CursorNext_columns, writeCell_columns]

theorem PrintChar_rows (s : Screen) (c : Nat) :
    (PrintChar s c).rows = s.rows := by
  unfold PrintChar wrapLine
  split
  · rfl
  · rw [CursorNext_rows, writeCell_rows]

theorem PrintChar_cursor (s : Screen) (c : Nat) (hc : c ≠ newlineCode) :
    (PrintChar s c).cursorX =
      (if s.cursorX + 1 < s.columns then s.cursorX + 1 else 0) ∧
    (PrintChar s c).cursorY =
      (if s.cursorX + 1 < s.columns then s.cursorY
       else if s.cursorY + 1 < s.rows then s.cursorY + 1 else 0) := by
  rw [PrintChar_of_ne_newline s c hc]
  unfold CursorNext
  simp only [writeCell_cursorX, writeCell_cursorY, writeCell_columns, writeCell_rows]
  constructor <;> · split_ifs <;> rfl

/-- Printing a newline-free string that exactly fills the rest of the
current row, starting from an in-bounds cursor, leaves the cursor at column
0 of the next row modulo the row count. -/
theorem print_fills_row (str : List Nat) :
    ∀ s : Screen, (∀ c ∈ str, c ≠ newlineCode) →
      s.cursorY < s.rows → s.cursorX < s.columns →
      s.cursorX + str.length = s.columns →
      (Print s str).cursorX = 0 ∧
        (Print s str).cursorY = (s.cursorY + 1) % s.rows := by
  induction str with
  | nil =>
      intro s _ _ hx hlen
      simp only [List.length_nil, Nat.add_zero] at hlen
      omega
  | cons c cs ih =>
      intro s hnl hy hx hlen
      have hc : c ≠ newlineCode := hnl c (List.mem_cons_self c cs)
      have hstep : Print s (c :: cs) = Print (PrintChar s c) cs := rfl
      rw [hstep]
      by_cases h1 : s.cursorX + 1 < s.columns
      · have key := ih (PrintChar s c)
          (fun c' hmem => hnl c' (List.mem_cons_of_mem c hmem))
          (by rw [PrintChar_rows, (PrintChar_cursor s c hc).2, if_pos h1]; exact hy)
          (by rw [PrintChar_columns, (PrintChar_cursor s c hc).1, if_pos h1]; exact h1)
          (by
            rw [PrintChar_columns, (PrintChar_cursor s c hc).1, if_pos h1]
            simp only [List.length_cons] at hlen
            omega)
        rw [(PrintChar_cursor s c hc).2, if_pos h1, PrintChar_rows] at key
        exact key
      · have hcs : cs = [] := by
          simp only [List.length_cons] at hlen
          have : cs.length = 0 := by omega
          exact List.length_eq_zero.mp this
        subst hcs
        have hnil : Print (PrintChar s c) [] = PrintChar s c := rfl
        rw [hnil]
        refine ⟨by rw [(PrintChar_cursor s c hc).1, if_neg h1], ?_⟩
        rw [(PrintChar_cursor s c hc).2, if_neg h1]
        split_ifs with h2
        · exact (Nat.mod_eq_of_lt h2).symm
        · have : s.cursorY + 1 = s.rows := by omega
          rw [this, Nat.mod_self]

/-- Claim C1: for every scanline in the vertical border band, `rasterize`
writes only the configured border color to every sample of the target
buffer and returns border timing metadata. -/
theorem rasterize_border_band (s : Screen) (cpp line : Nat)
    (h : inVerticalBorder s line = true) :
    (∀ p ∈ (rasterize s cpp line).2.1, p = s.borderColor) ∧
      (rasterize s cpp line).2.2.timing = Timing.border := by
  unfold rasterize
  rw [if_pos h]
  exact ⟨fun p hp => List.eq_of_mem_replicate hp, rfl⟩

/-- Witness for C1: on the concrete test surface, scanline 0 lies in the
vertical border band and the rasterized line is all border color with
border timing. -/
theorem rasterize_border_band_witness :
    inVerticalBorder testScreen 0 = true ∧
      ((∀ p ∈ (rasterize testScreen 4 0).2.1, p = testScreen.borderColor) ∧
        (rasterize testScreen 4 0).2.2.timing = Timing.border) :=
  ⟨by decide, rasterize_border_band testScreen 4 0 (by decide)⟩

/-- Claim C2: `SetCursorPosition(x, y)` stores exactly `(x, y)` when it is
within the text-cell bounds; for out-of-bounds input, the stored cursor
remains within bounds and is never equal to the invalid input. -/
theorem SetCursorPosition_clamps (s : Screen) (x y : Nat)
    (hc : 0 < s.columns) (hr : 0 < s.rows) :
    ((x < s.columns ∧ y < s.rows) →
        (SetCursorPosition s x y).cursorX = x ∧
          (SetCursorPosition s x y).cursorY = y) ∧
      ((SetCursorPosition s x y).cursorX < s.columns ∧
        (SetCursorPosition s x y).cursorY < s.rows) ∧
      (¬(x < s.columns ∧ y < s.rows) →
        ((SetCursorPosition s x y).cursorX, (SetCursorPosition s x y).cursorY)
          ≠ (x, y)) := by
  have hX : (SetCursorPosition s x y).cursorX = min x (s.columns - 1) := rfl
  have hY : (SetCursorPosition s x y).cursorY = min y (s.rows - 1) := rfl
  rw [hX, hY]
  refine ⟨fun hin => ⟨by omega, by omega⟩, ⟨by omega, by omega⟩, fun hout => ?_⟩
  simp only [ne_eq, Prod.mk.injEq, not_and]
  omega

/-- Witness for C2: on the concrete test surface (2×2 cells), requesting the
out-of-bounds position `(5, 0)` leaves the cursor in bounds and distinct
from the request. -/
theorem SetCursorPosition_clamps_witness :
    0 < testScreen.columns ∧ 0 < testScreen.rows ∧
      (((5 < testScreen.columns ∧ 0 < testScreen.rows) →
          (SetCursorPosition testScreen 5 0).cursorX = 5 ∧
            (SetCursorPosition testScreen 5 0).cursorY = 0) ∧
        ((SetCursorPosition testScreen 5 0).cursorX < testScreen.columns ∧
          (SetCursorPosition testScreen 5 0).cursorY < testScreen.rows) ∧
        (¬(5 < testScreen.columns ∧ 0 < testScreen.rows) →
          ((SetCursorPosition testScreen 5 0).cursorX,
            (SetCursorPosition testScreen 5 0).cursorY) ≠ (5, 0))) :=
  ⟨by decide, by decide,
    SetCursorPosition_clamps testScreen 5 0 (by decide) (by decide)⟩

/-- Claim C3: printing a newline-free string of exactly `columns` characters
from column 0 of an in-bounds row leaves the cursor at column 0 of the next
row, and at the last row it wraps to `(0, 0)` — the text area is a ring
with no scrolling. -/
theorem print_full_row_wraps (s : Screen) (str : List Nat)
    (hnl : ∀ c ∈ str, c ≠ newlineCode) (hx : s.cursorX = 0)
    (hy : s.cursorY < s.rows) (hcols : 0 < s.columns)
    (hlen : str.length = s.columns) :
    (Print s str).cursorX = 0 ∧
      (Print s str).cursorY = (s.cursorY + 1) % s.rows ∧
      (s.cursorY + 1 = s.rows → (Print s str).cursorY = 0) := by
  have key := print_fills_row str s hnl hy (by omega) (by omega)
  refine ⟨key.1, key.2, fun hlast => ?_⟩
  rw [key.2, hlast, Nat.mod_self]

/-- Witness for C3: on the concrete test surface (2 columns, 2 rows), with
the cursor at the start of the last row, printing the two characters `AB`
wraps the cursor back to `(0, 0)`. -/
theorem print_full_row_wraps_witness :
    (Print (SetCursorPosition testScreen 0 1) [65, 66]).cursorX = 0 ∧
      (Print (SetCursorPosition testScreen 0 1) [65, 66]).cursorY =
        ((SetCursorPosition testScreen 0 1).cursorY + 1) %
          (SetCursorPosition testScreen 0 1).rows ∧
      ((SetCursorPosition testScreen 0 1).cursorY + 1 =
          (SetCursorPosition testScreen 0 1).rows →
        (Print (SetCursorPosition testScreen 0 1) [65, 66]).cursorY = 0) :=
  print_full_row_wraps (SetCursorPosition testScreen 0 1) [65, 66]
    (by decide) (by decide) (by decide) (by decide) (by decide)

/-- Claim C4: a `rasterize` call never mutates the display-surface state;
the post-state of the call equals the pre-state, the only effect being the
returned target-buffer contents and timing metadata. -/
theorem rasterize_readonly (s : Screen) (cpp line : Nat) :
    (rasterize s cpp line).1 = s := by
  unfold rasterize
  split <;> rfl

theorem SetAttribute_cells (s : Screen) (a : Nat) :
    (SetAttribute s a).cells = s.cells := rfl

theorem SetAttribute_isCursorVisible (s : Screen) (a : Nat) :
    (SetAttribute s a).isCursorVisible = s.isCursorVisible := rfl

theorem SetAttribute_glyphW (s : Screen) (a : Nat) :
    (SetAttribute s a).glyphW = s.glyphW := rfl

theorem writeCell_isCursorVisible (s : Screen) (c : Nat) :
    (writeCell s c).isCursorVisible = s.isCursorVisible := rfl

theorem writeCell_glyphW (s : Screen) (c : Nat) :
    (writeCell s c).glyphW = s.glyphW := rfl

theorem CursorNext_isCursorVisible (s : Screen) :
    (CursorNext s).isCursorVisible = s.isCursorVisible := by
  unfold CursorNext
  split_ifs <;> rfl

theorem CursorNext_glyphW (s : Screen) : (CursorNext s).glyphW = s.glyphW := by
  unfold CursorNext
  split_ifs <;> rfl

/-- Claim C5: after `SetAttribute(a)`, printing `c`, then `SetAttribute(a')`,
the printed cell still stores `(c, a)` and rasterizing it expands the glyph
with the foreground/background of `a`, not `a'` — attribute changes are
never applied retroactively. -/
theorem attribute_not_retroactive (s : Screen) (a a' c g : Nat)
    (hc : c ≠ newlineCode) (hv : s.isCursorVisible = false) :
    ((SetAttribute (PrintChar (SetAttribute s a) c) a').cells
        s.cursorX s.cursorY) = ⟨c, a⟩ ∧
      renderCellRow (SetAttribute (PrintChar (SetAttribute s a) c) a')
          s.cursorX s.cursorY g =
        expandRow
          (fontBit (SetAttribute (PrintChar (SetAttribute s a) c) a')
            s.cursorX s.cursorY g)
          (attrFg a) (attrBg a) s.glyphW := by
  have hcells : (SetAttribute (PrintChar (SetAttribute s a) c) a').cells
      s.cursorX s.cursorY = ⟨c, a⟩ := by
    rw [SetAttribute_cells, PrintChar_of_ne_newline _ c hc, CursorNext_cells]
    show (if s.cursorX = s.cursorX ∧ s.cursorY = s.cursorY then (⟨c, a⟩ : Cell)
      else s.cells s.cursorX s.cursorY) = ⟨c, a⟩
    rw [if_pos ⟨rfl, rfl⟩]
  have hvis : (SetAttribute (PrintChar (SetAttribute s a) c) a').isCursorVisible
      = false := by
    rw [SetAttribute_isCursorVisible, PrintChar_of_ne_newline _ c hc,
      CursorNext_isCursorVisible, writeCell_isCursorVisible,
      SetAttribute_isCursorVisible]
    exact hv
  have hgw : (SetAttribute (PrintChar (SetAttribute s a) c) a').glyphW
      = s.glyphW := by
    rw [SetAttribute_glyphW, PrintChar_of_ne_newline _ c hc,
      CursorNext_glyphW, writeCell_glyphW, SetAttribute_glyphW]
  have hcur : cursorOn (SetAttribute (PrintChar (SetAttribute s a) c) a')
      s.cursorX s.cursorY = false := by
    unfold cursorOn
    rw [hvis]
    simp
  refine ⟨hcells, ?_⟩
  unfold renderCellRow
  rw [hcur]
  simp only [Bool.false_eq_true, if_false]
  unfold glyphRow
  rw [hcells, hgw]

/-- Witness for C5: on the concrete test surface, printing character 65
under attribute `0x0102` and then switching to `0x0304` leaves the cell
stored and rendered under `0x0102`. -/
theorem attribute_not_retroactive_witness :
    ((SetAttribute (PrintChar (SetAttribute testScreen 0x0102) 65) 0x0304).cells
        testScreen.cursorX testScreen.cursorY) = ⟨65, 0x0102⟩ ∧
      renderCellRow (SetAttribute (PrintChar (SetAttribute testScreen 0x0102) 65) 0x0304)
          testScreen.cursorX testScreen.cursorY 0 =
        expandRow
          (fontBit (SetAttribute (PrintChar (SetAttribute testScreen 0x0102) 65) 0x0304)
            testScreen.cursorX testScreen.cursorY 0)
          (attrFg 0x0102) (attrBg 0x0102) testScreen.glyphW :=
  attribute_not_retroactive testScreen 0x0102 0x0304 65 0 (by decide) (by decide)

/-- Claim C6: `SetFont` rejects a null or mis-sized font table, retaining
the previously active table, so the font pointer never becomes null. -/
theorem SetFont_rejects_invalid (s : Screen) (t : Option FontTable) :
    (t = none → SetFont s t = s) ∧
      (∀ f, t = some f →
        ¬(f.glyphWidth = s.glyphW ∧ f.glyphHeight = s.glyphH) →
          SetFont s t = s) ∧
      (s.font ≠ none → (SetFont s t).font ≠ none) := by
  have hred : ∀ f : FontTable, SetFont s (some f) =
      if f.glyphWidth = s.glyphW ∧ f.glyphHeight = s.glyphH then
        { s with font := some f }
      else s := fun _ => rfl
  refine ⟨fun h => by rw [h]; rfl, fun f hf hsz => ?_, fun hnn => ?_⟩
  · rw [hf, hred, if_neg hsz]
  · cases t with
    | none => exact hnn
    | some f =>
        rw [hred]
        split_ifs
        · simp
        · exact hnn

/-- Witness for C6: on the concrete test surface, a null table and a
mis-sized 4×4 table are both rejected, leaving the surface unchanged. -/
theorem SetFont_rejects_invalid_witness :
    SetFont testScreen none = testScreen ∧
      SetFont testScreen (some badFont) = testScreen :=
  ⟨(SetFont_rejects_invalid testScreen none).1 rfl,
    (SetFont_rejects_invalid testScreen (some badFont)).2.1 badFont rfl
      (by decide)⟩

/-- Claim C7: for a string no longer than the column count,
`PrintAlignRight(y, s)` yields the same surface state, and hence the same
rasterized pixel output on every scanline, as
`PrintAt(columns - len(s), y, s)`. -/
theorem PrintAlignRight_eq_PrintAt_pixels (s : Screen) (y : Nat)
    (str : List Nat) (_h : str.length ≤ s.columns) (cpp line : Nat) :
    PrintAlignRight s y str = PrintAt s (s.columns - str.length) y str ∧
      rasterize (PrintAlignRight s y str) cpp line =
        rasterize (PrintAt s (s.columns - str.length) y str) cpp line :=
  ⟨rfl, rfl⟩

/-- Witness for C7: a one-character string on the two-column test surface. -/
theorem PrintAlignRight_eq_PrintAt_pixels_witness :
    [65].length ≤ testScreen.columns ∧
      (PrintAlignRight testScreen 0 [65] =
          PrintAt testScreen (testScreen.columns - [65].length) 0 [65] ∧
        rasterize (PrintAlignRight testScreen 0 [65]) 1 1 =
          rasterize (PrintAt testScreen (testScreen.columns - [65].length) 0 [65]) 1 1) :=
  ⟨by decide, PrintAlignRight_eq_PrintAt_pixels testScreen 0 [65] (by decide) 1 1⟩

theorem renderCellRow_hidden (s : Screen) (x y g : Nat)
    (hv : s.isCursorVisible = false) :
    renderCellRow s x y g = glyphRow s x y g := by
  unfold renderCellRow cursorOn
  rw [hv]
  simp

theorem fontBit_congr (s1 s2 : Screen) (h1 : s1.cells = s2.cells)
    (h2 : s1.font = s2.font) : fontBit s1 = fontBit s2 := by
  funext x y g col
  unfold fontBit
  rw [h1, h2]

theorem glyphRow_congr (s1 s2 : Screen) (h1 : s1.cells = s2.cells)
    (h2 : s1.font = s2.font) (h3 : s1.glyphW = s2.glyphW) :
    glyphRow s1 = glyphRow s2 := by
  funext x y g
  unfold glyphRow
  rw [fontBit_congr s1 s2 h1 h2, h1, h3]

/-- Claim C8: after `HideCursor()`, every cell — in particular the cursor's
cell — rasterizes to exactly the glyph-only pixel output with no inverted
overlay, whatever the frame counter's value; the glyph-only output and the
whole rasterized line are both independent of the frame counter. -/
theorem hidden_cursor_glyph_only (s : Screen) (f f' x y g cpp line : Nat) :
    renderCellRow (setFrames (HideCursor s) f) x y g =
        glyphRow (setFrames (HideCursor s) f) x y g ∧
      glyphRow (setFrames (HideCursor s) f) =
        glyphRow (setFrames (HideCursor s) f') ∧
      (rasterize (setFrames (HideCursor s) f) cpp line).2 =
        (rasterize (setFrames (HideCursor s) f') cpp line).2 := by
  have hvf : ∀ n : Nat, (setFrames (HideCursor s) n).isCursorVisible = false :=
    fun _ => rfl
  have hglyph : glyphRow (setFrames (HideCursor s) f) =
      glyphRow (setFrames (HideCursor s) f') :=
    glyphRow_congr _ _ rfl rfl rfl
  have hfun : renderCellRow (setFrames (HideCursor s) f) =
      renderCellRow (setFrames (HideCursor s) f') := by
    funext x' y' g'
    rw [renderCellRow_hidden _ x' y' g' (hvf f),
      renderCellRow_hidden _ x' y' g' (hvf f'), hglyph]
  refine ⟨renderCellRow_hidden _ x y g (hvf f), hglyph, ?_⟩
  unfold rasterize
  rw [hfun]
  by_cases hb : inVerticalBorder (setFrames (HideCursor s) f) line = true
  · have hb' : inVerticalBorder (setFrames (HideCursor s) f') line = true := hb
    rw [if_pos hb, if_pos hb']
    rfl
  · have hb' : ¬inVerticalBorder (setFrames (HideCursor s) f') line = true := hb
    rw [if_neg hb, if_neg hb']
    rfl

/-- Claim C9: immediately after construction, the active font is the
built-in `font8x8` table (non-null), the attribute is `0x3F10` (white on
blue), the cursor is at `(0, 0)` and the frame counter is 0; consequently a
character printed before any `SetAttribute`/`SetFont` call is stored under
attribute `0x3F10`. -/
theorem construct_defaults (hRes hResNB vRes sl hb vb cols rws gW gH bc : Nat) :
    (Screen.construct hRes hResNB vRes sl hb vb cols rws gW gH bc).font
        = some font8x8 ∧
      (Screen.construct hRes hResNB vRes sl hb vb cols rws gW gH bc).attr
        = 0x3F10 ∧
      (Screen.construct hRes hResNB vRes sl hb vb cols rws gW gH bc).cursorX
        = 0 ∧
      (Screen.construct hRes hResNB vRes sl hb vb cols rws gW gH bc).cursorY
        = 0 ∧
      (Screen.construct hRes hResNB vRes sl hb vb cols rws gW gH bc).frames
        = 0 ∧
      (∀ c, c ≠ newlineCode →
        (PrintChar (Screen.construct hRes hResNB vRes sl hb vb cols rws gW gH bc)
            c).cells 0 0 = ⟨c, 0x3F10⟩) := by
  refine ⟨rfl, rfl, rfl, rfl, rfl, fun c hc => ?_⟩
  rw [PrintChar_of_ne_newline _ c hc, CursorNext_cells]
  show (if (0 : Nat) = 0 ∧ (0 : Nat) = 0 then (⟨c, 0x3F10⟩ : Cell)
    else Cell.mk 32 0x3F10) = ⟨c, 0x3F10⟩
  rw [if_pos ⟨rfl, rfl⟩]

/-- Witness for C9: printing character 65 on a freshly constructed surface
stores it under the default attribute `0x3F10`. -/
theorem construct_defaults_witness :
    (PrintChar (Screen.construct 20 16 18 0 2 1 2 2 8 8 9) 65).cells 0 0
      = ⟨65, 0x3F10⟩ :=
  (construct_defaults 20 16 18 0 2 1 2 2 8 8 9).2.2.2.2.2 65 (by decide)

end Display

/-- Claim C10: each `loop()` iteration consults the snapshot-load,
snapshot-save and on-screen-keyboard handlers in that fixed order, ends
immediately at the first handler returning true, and runs `zx_loop()` (and
hence key dispatch) exactly when all three return false. -/
theorem loop_mode_handler_order (l s k : Bool) (z : Int) :
    (l = true → Startup.loopTrace l s k z = [Startup.LoopEvent.consultLoad]) ∧
      (l = false → s = true →
        Startup.loopTrace l s k z =
          [Startup.LoopEvent.consultLoad, Startup.LoopEvent.consultSave]) ∧
      (l = false → s = false → k = true →
        Startup.loopTrace l s k z =
          [Startup.LoopEvent.consultLoad, Startup.LoopEvent.consultSave,
            Startup.LoopEvent.consultKeyboard]) ∧
      (l = false → s = false → k = false →
        Startup.loopTrace l s k z =
          [Startup.LoopEvent.consultLoad, Startup.LoopEvent.consultSave,
            Startup.LoopEvent.consultKeyboard, Startup.LoopEvent.runZx z]) ∧
      (Startup.LoopEvent.runZx z ∈ Startup.loopTrace l s k z ↔
        (l = false ∧ s = false ∧ k = false)) := by
  cases l <;> cases s <;> cases k <;>
    simp [Startup.loopTrace]

/-- Witness for C10: with all three mode handlers returning false, the
iteration consults all of them in order and then runs `zx_loop()`. -/
theorem loop_mode_handler_order_witness :
    Startup.loopTrace false false false 3 =
      [Startup.LoopEvent.consultLoad, Startup.LoopEvent.consultSave,
        Startup.LoopEvent.consultKeyboard, Startup.LoopEvent.runZx 3] :=
  (loop_mode_handler_order false false false 3).2.2.2.1 rfl rfl rfl
